import Mathlib

/-!
Shallow embedding of `aeron-client/src/main/c/aeron_subscription.c`.

Modelling conventions:
  * `aeron_image_t *` handles are opaque; we model them as `Nat` identifiers.
  * The intrusive `next_list` chain hanging off `image_lists_head` is modelled
    as a Lean `List` of image-list nodes, newest first (the head of the Lean
    list is `image_lists_head.next_list`).
  * `int32_t` / `int` values are modelled as `Int` (signed overflow is
    undefined behaviour in the source, so the idealisation is faithful on all
    defined executions); `size_t` values are modelled as `Nat`.
  * `aeron_image_poll` is external to this file; `poll` takes it as an oracle
    `imagePoll : Nat -> Int -> Int` mapping an image handle and a fragment
    limit to the number of fragments consumed (the handler and clientd
    arguments are absorbed into the oracle, which is otherwise opaque).
  * Allocation may fail; allocating entry points take an `allocOk : Bool`
    flag standing for the success of `aeron_alloc` and return the C `int`
    result code alongside the constructed value.
  * A C execution that dereferences a null pointer has no defined result; the
    embedding returns `none` in exactly those cases.
  * `poll` additionally returns, as ghost output, the `starting_index` local
    and the list of array indices whose image was polled, in order; these are
    values the source computes and are exposed only for specification.
-/

/-- One `aeron_image_list_t` node: a change number and the images array.
The `next_list` field is represented by list structure, not stored here. -/
structure AeronImageList where
  change_number : Int
  images : List Nat
  deriving Repr, DecidableEq

/-- The `aeron_subscription_t` struct.  `conductor_fields.image_lists_head.next_list`
is `image_lists` (newest node first); the opaque `conductor` pointer and the two
callback pointers carry no behaviour in this file and are omitted. -/
structure AeronSubscription where
  image_lists : List AeronImageList
  next_change_number : Int
  last_image_list_change_number : Int
  channel : String
  stream_id : Int
  registration_id : Int
  round_robin_index : Nat
  is_closed : Bool
  deriving Repr, DecidableEq, Inhabited

/-- `aeron_subscription_create`: allocates and initialises a subscription.
Returns the out-parameter `*subscription` (`none` when allocation failed and
the out-parameter is left NULL) together with the C `int` return code.
The source returns `-1` on BOTH paths (line 58 returns `-1` even after a
successful allocation); the embedding reproduces that faithfully. -/
def aeron_subscription_create (allocOk : Bool) (channel : String)
    (stream_id : Int) (registration_id : Int) :
    Option AeronSubscription × Int :=
  if allocOk then
    ({ image_lists := []
       next_change_number := 0
       last_image_list_change_number := -1
       channel := channel
       stream_id := stream_id
       registration_id := registration_id
       round_robin_index := 0
       is_closed := false : AeronSubscription } |> some, -1)
  else
    (none, -1)

/-- `aeron_subscription_delete`: frees channel and struct, returns 0. -/
def aeron_subscription_delete (_subscription : AeronSubscription) : Int :=
  0

/-- `aeron_subscription_alloc_image_list`: allocates a node with
`change_number = -1`, an array of `length` (uninitialised) slots and no tail.
Returns the out-parameter and the C result code. -/
def aeron_subscription_alloc_image_list (allocOk : Bool) (length : Nat) :
    Option AeronImageList × Int :=
  if allocOk then
    (some { change_number := -1, images := List.replicate length 0 }, 0)
  else
    (none, -1)

/-- `aeron_client_conductor_subscription_new_image_list`: stamps the node with
`next_change_number` (post-incrementing the counter), links it to the current
head chain and publishes it as the new head. -/
def aeron_client_conductor_subscription_new_image_list
    (subscription : AeronSubscription) (image_list : AeronImageList) :
    AeronSubscription :=
  { subscription with
    image_lists :=
      { image_list with change_number := subscription.next_change_number }
        :: subscription.image_lists
    next_change_number := subscription.next_change_number + 1 }

/-- The while loop of `aeron_client_conductor_subscription_prune_image_lists`:
walk the chain, keeping nodes with `change_number >= last_change_number` and
unlinking (freeing) the others.  Returns (kept chain, freed nodes in order). -/
def prune_image_lists_walk (last_change_number : Int) :
    List AeronImageList → List AeronImageList × List AeronImageList
  | [] => ([], [])
  | l :: rest =>
    if l.change_number ≥ last_change_number then
      let (kept, freed) := prune_image_lists_walk last_change_number rest
      (l :: kept, freed)
    else
      let (kept, freed) := prune_image_lists_walk last_change_number rest
      (kept, l :: freed)

/-- `aeron_client_conductor_subscription_prune_image_lists`: reads
`last_image_list_change_number` once, then walks the chain freeing stale
nodes.  Returns the updated subscription and, as ghost output, the list of
freed nodes. -/
def aeron_client_conductor_subscription_prune_image_lists
    (subscription : AeronSubscription) :
    AeronSubscription × List AeronImageList :=
  let last_change_number := subscription.last_image_list_change_number
  let (kept, freed) :=
    prune_image_lists_walk last_change_number subscription.image_lists
  ({ subscription with image_lists := kept }, freed)

/-- One of the two `for` loops in `aeron_subscription_poll`: polls the images
at `indices` (in order) while `fragments_read < fragment_limit`, accumulating
fragments.  Returns the final `fragments_read` and the indices actually
polled, in order. -/
def poll_images_loop (imagePoll : Nat → Int → Int) (array : List Nat) :
    List Nat → Int → Int → Int × List Nat
  | [], _, fragments_read => (fragments_read, [])
  | i :: rest, fragment_limit, fragments_read =>
    if fragments_read < fragment_limit then
      let r := imagePoll (array.getD i 0) (fragment_limit - fragments_read)
      let (total, polled) :=
        poll_images_loop imagePoll array rest fragment_limit
          (fragments_read + r)
      (total, i :: polled)
    else
      (fragments_read, [])

/-- `aeron_subscription_poll`.  Loads the head image list (dereferencing it
unconditionally: a NULL head — no list ever installed — is an undefined
dereference, modelled as `none`), computes the round-robin starting index,
runs the two polling loops, and conditionally publishes the observed change
number.  Returns `(fragments_read, starting_index, polled indices, state)`;
the middle two components are ghost outputs of locals the source computes. -/
def aeron_subscription_poll (imagePoll : Nat → Int → Int)
    (subscription : AeronSubscription) (fragment_limit : Int) :
    Option (Int × Nat × List Nat × AeronSubscription) :=
  match subscription.image_lists with
  | [] => none
  | image_list :: _ =>
    let length := image_list.images.length
    let cursor := subscription.round_robin_index
    let starting_index := if cursor ≥ length then 0 else cursor
    let new_cursor := if cursor ≥ length then 0 else cursor + 1
    let (fr1, polled1) :=
      poll_images_loop imagePoll image_list.images
        (List.range' starting_index (length - starting_index)) fragment_limit 0
    let (fragments_read, polled2) :=
      poll_images_loop imagePoll image_list.images
        (List.range starting_index) fragment_limit fr1
    let new_last :=
      if image_list.change_number > subscription.last_image_list_change_number
      then image_list.change_number
      else subscription.last_image_list_change_number
    some (fragments_read, starting_index, polled1 ++ polled2,
      { subscription with
        round_robin_index := new_cursor
        last_image_list_change_number := new_last })

/-- Iterate `poll` a given number of times with a fixed oracle and fragment
limit, collecting each call's `(fragments_read, starting_index, polled)`
triple; `none` if any call hits the undefined NULL dereference. -/
def aeron_subscription_poll_iter (imagePoll : Nat → Int → Int)
    (fragment_limit : Int) (subscription : AeronSubscription) :
    Nat → Option (List (Int × Nat × List Nat) × AeronSubscription)
  | 0 => some ([], subscription)
  | n + 1 =>
    match aeron_subscription_poll imagePoll subscription fragment_limit with
    | none => none
    | some (fr, st, polled, s2) =>
      match aeron_subscription_poll_iter imagePoll fragment_limit s2 n with
      | none => none
      | some (trace, sF) => some ((fr, st, polled) :: trace, sF)

/-! ### Reachable states

`ReachableH s vs` says the subscription state `s` arises from a freshly
created subscription by some interleaving of installs, prunes and polls;
`vs` is the ghost history of change numbers assigned at installs, newest
first.  `Reachable s` forgets the history. -/

inductive ReachableH : AeronSubscription → List Int → Prop
  | create (channel : String) (stream_id registration_id : Int)
      (s : AeronSubscription)
      (h : (aeron_subscription_create true channel
              stream_id registration_id).1 = some s) :
      ReachableH s []
  | install (s : AeronSubscription) (vs : List Int) (l : AeronImageList)
      (h : ReachableH s vs) :
      ReachableH (aeron_client_conductor_subscription_new_image_list s l)
        (s.next_change_number :: vs)
  | prune (s : AeronSubscription) (vs : List Int) (h : ReachableH s vs) :
      ReachableH (aeron_client_conductor_subscription_prune_image_lists s).1 vs
  | poll (s : AeronSubscription) (vs : List Int) (f : Nat → Int → Int)
      (k : Int) (out : Int × Nat × List Nat × AeronSubscription)
      (h : ReachableH s vs)
      (hp : aeron_subscription_poll f s k = some out) :
      ReachableH out.2.2.2 vs

def Reachable (s : AeronSubscription) : Prop :=
  ∃ vs, ReachableH s vs

/-- The structural invariant of the image-list chain: change numbers strictly
decrease from the head down, and every node's change number lies in
`[0, next_change_number)`. -/
def ChainInv (s : AeronSubscription) : Prop :=
  List.Pairwise (fun a b => b.change_number < a.change_number) s.image_lists ∧
  (∀ l ∈ s.image_lists,
    0 ≤ l.change_number ∧ l.change_number < s.next_change_number) ∧
  0 ≤ s.next_change_number

theorem prune_image_lists_walk_kept_sublist (c : Int) :
    ∀ l : List AeronImageList, (prune_image_lists_walk c l).1.Sublist l := by
  intro l
  induction l with
  | nil => simp [prune_image_lists_walk]
  | cons a t ih =>
    by_cases h : a.change_number ≥ c
    · simpa [prune_image_lists_walk, h] using ih.cons₂ a
    · simpa [prune_image_lists_walk, h] using ih.cons a

theorem prune_image_lists_walk_freed (c : Int) :
    ∀ l : List AeronImageList,
      ∀ x ∈ (prune_image_lists_walk c l).2, x.change_number < c := by
  intro l
  induction l with
  | nil => simp [prune_image_lists_walk]
  | cons a t ih =>
    by_cases h : a.change_number ≥ c
    · simpa [prune_image_lists_walk, h] using ih
    · intro x hx
      rw [prune_image_lists_walk] at hx
      simp only [if_neg h] at hx
      rcases List.mem_cons.mp hx with rfl | hx
      · omega
      · exact ih x hx

/-- A successful poll leaves the chain and the install counter untouched. -/
theorem poll_preserves_chain (f : Nat → Int → Int) (s : AeronSubscription)
    (k : Int) (out : Int × Nat × List Nat × AeronSubscription)
    (hp : aeron_subscription_poll f s k = some out) :
    out.2.2.2.image_lists = s.image_lists ∧
    out.2.2.2.next_change_number = s.next_change_number := by
  cases hch : s.image_lists with
  | nil => simp [aeron_subscription_poll, hch] at hp
  | cons il rest =>
    simp only [aeron_subscription_poll, hch, Option.some.injEq] at hp
    subst hp
    simp [hch]

/-- Every reachable state satisfies the chain invariant, every historically
assigned version is below the current counter, and the version history is
strictly decreasing (newest first). -/
theorem reachableH_inv {s : AeronSubscription} {vs : List Int}
    (h : ReachableH s vs) :
    ChainInv s ∧ (∀ v ∈ vs, v < s.next_change_number) ∧
      List.Pairwise (fun a b => b < a) vs := by
  induction h with
  | create ch sid rid s h =>
    simp only [aeron_subscription_create, if_true, Option.some.injEq] at h
    subst h
    simp [ChainInv]
  | install s vs l _ ih =>
    obtain ⟨⟨hpw, hbnd, hnn⟩, hvs, hvp⟩ := ih
    simp only [ChainInv, aeron_client_conductor_subscription_new_image_list,
      List.pairwise_cons, List.mem_cons]
    refine ⟨⟨⟨fun b hb => (hbnd b hb).2, hpw⟩, ?_, by omega⟩, ?_, ?_, hvp⟩
    · intro m hm
      rcases hm with rfl | hm
      · exact ⟨hnn, lt_add_one _⟩
      · have hb := hbnd m hm
        exact ⟨hb.1, by omega⟩
    · intro v hv
      rcases hv with rfl | hv
      · omega
      · have := hvs v hv
        omega
    · exact fun v hv => hvs v hv
  | prune s vs _ ih =>
    obtain ⟨⟨hpw, hbnd, hnn⟩, hvs, hvp⟩ := ih
    have hsub := prune_image_lists_walk_kept_sublist
      s.last_image_list_change_number s.image_lists
    refine ⟨⟨hpw.sublist hsub, ?_, hnn⟩, hvs, hvp⟩
    intro m hm
    exact hbnd m (hsub.mem hm)
  | poll s vs f k out _ hp ih =>
    obtain ⟨⟨hpw, hbnd, hnn⟩, hvs, hvp⟩ := ih
    obtain ⟨hch, hnext⟩ := poll_preserves_chain f s k out hp
    rw [ChainInv, hch, hnext]
    exact ⟨⟨hpw, hbnd, hnn⟩, fun v hv => hnext ▸ hvs v hv, hvp⟩

/-! ### Properties of the polling loops -/

theorem poll_images_loop_stop (f : Nat → Int → Int) (arr : List Nat)
    (idxs : List Nat) (limit acc : Int) (h : ¬ acc < limit) :
    poll_images_loop f arr idxs limit acc = (acc, []) := by
  cases idxs with
  | nil => rfl
  | cons i rest => simp [poll_images_loop, h]

theorem poll_images_loop_le (f : Nat → Int → Int) (arr : List Nat)
    (hf : ∀ a l, 0 < l → 0 ≤ f a l ∧ f a l ≤ l) :
    ∀ (idxs : List Nat) (limit acc : Int), acc ≤ limit →
      acc ≤ (poll_images_loop f arr idxs limit acc).1 ∧
        (poll_images_loop f arr idxs limit acc).1 ≤ limit := by
  intro idxs
  induction idxs with
  | nil =>
    intro limit acc h
    exact ⟨le_refl _, h⟩
  | cons i rest ih =>
    intro limit acc h
    by_cases hlt : acc < limit
    · have hr := hf (arr.getD i 0) (limit - acc) (by omega)
      have h2 : acc + f (arr.getD i 0) (limit - acc) ≤ limit := by omega
      have h3 := ih limit (acc + f (arr.getD i 0) (limit - acc)) h2
      simp only [poll_images_loop, if_pos hlt]
      constructor
      · have : 0 ≤ f (arr.getD i 0) (limit - acc) := hr.1
        omega
      · exact h3.2
    · simp [poll_images_loop_stop f arr _ limit acc hlt, h]

theorem poll_images_loop_sublist (f : Nat → Int → Int) (arr : List Nat) :
    ∀ (idxs : List Nat) (limit acc : Int),
      ((poll_images_loop f arr idxs limit acc).2).Sublist idxs := by
  intro idxs
  induction idxs with
  | nil =>
    intro limit acc
    simp [poll_images_loop]
  | cons i rest ih =>
    intro limit acc
    by_cases hlt : acc < limit
    · simpa [poll_images_loop, hlt] using
        (ih limit (acc + f (arr.getD i 0) (limit - acc))).cons₂ i
    · simp [poll_images_loop_stop f arr _ limit acc hlt]

/-- With an image that always supplies the full limit it is offered, a
non-exhausted loop polls exactly its first index and returns the limit. -/
theorem poll_images_loop_unlimited (f : Nat → Int → Int) (arr : List Nat)
    (hf : ∀ a l, f a l = l) (i : Nat) (rest : List Nat) (limit acc : Int)
    (h : acc < limit) :
    poll_images_loop f arr (i :: rest) limit acc = (limit, [i]) := by
  have hr : acc + f (arr.getD i 0) (limit - acc) = limit := by
    rw [hf]; omega
  simp only [poll_images_loop, if_pos h, hr,
    poll_images_loop_stop f arr rest limit limit (lt_irrefl limit)]

/-- One poll with an in-range cursor and an unlimited image oracle: the call
polls exactly the image at the cursor index, returns the full limit, and
advances the cursor by one. -/
theorem poll_unlimited_step (f : Nat → Int → Int) (s : AeronSubscription)
    (il : AeronImageList) (rest : List AeronImageList) (limit : Int)
    (hch : s.image_lists = il :: rest)
    (hcur : s.round_robin_index < il.images.length)
    (hlim : 0 < limit) (hf : ∀ a l, f a l = l) :
    aeron_subscription_poll f s limit =
      some (limit, s.round_robin_index, [s.round_robin_index],
        { s with
          round_robin_index := s.round_robin_index + 1
          last_image_list_change_number :=
            if il.change_number > s.last_image_list_change_number
            then il.change_number
            else s.last_image_list_change_number }) := by
  obtain ⟨m, hm⟩ : ∃ m, il.images.length - s.round_robin_index = m + 1 :=
    ⟨il.images.length - s.round_robin_index - 1, by omega⟩
  have hnot : ¬ s.round_robin_index ≥ il.images.length := by omega
  simp only [aeron_subscription_poll, hch, if_neg hnot, hm,
    List.range'_succ,
    poll_images_loop_unlimited f il.images hf s.round_robin_index
      (List.range' (s.round_robin_index + 1) m 1) limit 0 hlim,
    poll_images_loop_stop f il.images (List.range s.round_robin_index)
      limit limit (lt_irrefl limit),
    List.append_nil]

/-- Iterating poll with an unlimited oracle and in-range cursor: call `i`
starts at cursor `+ i` and polls exactly that image. -/
theorem poll_iter_unlimited (f : Nat → Int → Int) (limit : Int)
    (hlim : 0 < limit) (hf : ∀ a l, f a l = l) (il : AeronImageList) :
    ∀ (j : Nat) (s : AeronSubscription) (rest : List AeronImageList),
      s.image_lists = il :: rest →
      s.round_robin_index + j ≤ il.images.length →
      ∃ sF, aeron_subscription_poll_iter f limit s j =
          some ((List.range' s.round_robin_index j).map
            (fun k => (limit, k, [k])), sF) ∧
        sF.round_robin_index = s.round_robin_index + j ∧
        sF.image_lists = s.image_lists := by
  intro j
  induction j with
  | zero =>
    intro s rest hch hj
    exact ⟨s, by simp [aeron_subscription_poll_iter], by simp, rfl⟩
  | succ m ih =>
    intro s rest hch hj
    have hcur : s.round_robin_index < il.images.length := by omega
    have hstep := poll_unlimited_step f s il rest limit hch hcur hlim hf
    obtain ⟨sF, hiter, hcF, hchF⟩ := ih
      { s with
        round_robin_index := s.round_robin_index + 1
        last_image_list_change_number :=
          if il.change_number > s.last_image_list_change_number
          then il.change_number
          else s.last_image_list_change_number }
      rest (by simpa using hch) (by simp; omega)
    refine ⟨sF, ?_, ?_, ?_⟩
    · rw [aeron_subscription_poll_iter, hstep]
      simp only [hiter, List.range'_succ, List.map_cons]
    · rw [hcF]
      show s.round_robin_index + 1 + m = s.round_robin_index + (m + 1)
      omega
    · rw [hchF]

/-- Closed form of a poll on a non-empty chain: the two loops, the starting
index, and the field updates, all explicit. -/
theorem aeron_subscription_poll_eq (f : Nat → Int → Int)
    (s : AeronSubscription) (limit : Int) (il : AeronImageList)
    (rest : List AeronImageList) (hch : s.image_lists = il :: rest)
    (st nc : Nat)
    (hst : st =
      if s.round_robin_index ≥ il.images.length then 0
      else s.round_robin_index)
    (hnc : nc =
      if s.round_robin_index ≥ il.images.length then 0
      else s.round_robin_index + 1) :
    aeron_subscription_poll f s limit =
      some
        ((poll_images_loop f il.images (List.range st) limit
            (poll_images_loop f il.images
              (List.range' st (il.images.length - st)) limit 0).1).1,
         st,
         (poll_images_loop f il.images
            (List.range' st (il.images.length - st)) limit 0).2 ++
           (poll_images_loop f il.images (List.range st) limit
             (poll_images_loop f il.images
               (List.range' st (il.images.length - st)) limit 0).1).2,
         { s with
           round_robin_index := nc
           last_image_list_change_number :=
             if il.change_number > s.last_image_list_change_number
             then il.change_number
             else s.last_image_list_change_number }) := by
  subst hst hnc
  simp only [aeron_subscription_poll, hch]

theorem prune_image_lists_walk_freed_sublist (c : Int) :
    ∀ l : List AeronImageList, (prune_image_lists_walk c l).2.Sublist l := by
  intro l
  induction l with
  | nil => simp [prune_image_lists_walk]
  | cons a t ih =>
    by_cases h : a.change_number ≥ c
    · simpa [prune_image_lists_walk, h] using ih.cons a
    · simpa [prune_image_lists_walk, h] using ih.cons₂ a

/-! ### Concrete states used as test inputs -/

/-- The subscription produced by a successful `aeron_subscription_create`. -/
def freshSub : AeronSubscription :=
  { image_lists := []
    next_change_number := 0
    last_image_list_change_number := -1
    channel := "aeron:udp?endpoint=localhost:40123"
    stream_id := 10
    registration_id := 1
    round_robin_index := 0
    is_closed := false }

/-- A subscription with one installed three-image list, polled twice with an
unlimited image oracle: the reachable state right before the C4
counterexample window. -/
def threeImageSub : AeronSubscription :=
  { freshSub with
    image_lists := [{ change_number := 0, images := [11, 22, 33] }]
    next_change_number := 1
    last_image_list_change_number := 0
    round_robin_index := 2 }

/-- A closed subscription with one installed single-image list. -/
def closedSub : AeronSubscription :=
  { freshSub with
    image_lists := [{ change_number := 0, images := [7] }]
    next_change_number := 1
    is_closed := true }

/-! ### The claims -/

/-- C1: poll on a subscription on which no image list was ever installed
(`head.next_list` still NULL, the state `aeron_subscription_create` leaves)
is required by the spec to return 0 fragments without faulting.  The source
dereferences the NULL head unconditionally (`image_list->length` at line
138), so the call has no defined result — the embedding yields `none`, not
`some 0`. -/
theorem c1_poll_with_no_image_list_faults :
    aeron_subscription_poll (fun _ lim => lim) freshSub 10 = none ∧
    (aeron_subscription_create true "aeron:udp?endpoint=localhost:40123"
        10 1).1 = some freshSub := by
  exact ⟨rfl, rfl⟩

/-- C3: the result of `aeron_subscription_create` is required to distinguish
success from failure.  The source returns `-1` on the success path (line 58)
exactly as on the allocation-failure path, so the `int` result code does not
distinguish the two; only the out-parameter does (`some` subscription on
success, `none` — no partial object — on failure). -/
theorem c3_create_result_code_same_on_success_and_failure :
    (aeron_subscription_create true "aeron:ipc" 7 42).2 = -1 ∧
    (aeron_subscription_create false "aeron:ipc" 7 42).2 = -1 ∧
    (aeron_subscription_create true "aeron:ipc" 7 42).1.isSome = true ∧
    (aeron_subscription_create false "aeron:ipc" 7 42).1 = none := by
  exact ⟨rfl, rfl, rfl, rfl⟩

/-- C8: on a subscription whose `is_closed` flag is true, poll is required to
be a no-op returning 0.  The source never reads `is_closed` in
`aeron_subscription_poll`: on a closed subscription with an installed
single-image list whose image yields one fragment, poll returns 1 and
advances both the fairness cursor and `last_image_list_change_number`. -/
theorem c8_poll_on_closed_subscription_not_noop :
    aeron_subscription_poll (fun _ _ => 1) closedSub 10 =
      some (1, 0, [0],
        { closedSub with
          round_robin_index := 1
          last_image_list_change_number := 0 }) ∧
    closedSub.is_closed = true := by
  exact ⟨rfl, rfl⟩

/-- Image-list nodes as `aeron_subscription_alloc_image_list` hands them to
the conductor (change number still the `-1` placeholder). -/
def ilA : AeronImageList := { change_number := -1, images := [11, 22] }

def ilB : AeronImageList := { change_number := -1, images := [11, 22, 33] }

/-- A fresh subscription after two consecutive installs. -/
def twoInstallSub : AeronSubscription :=
  aeron_client_conductor_subscription_new_image_list
    (aeron_client_conductor_subscription_new_image_list freshSub ilA) ilB

/-- C2: within one pruning pass, reading `last_image_list_change_number`
once at the start, prune frees only nodes whose change number is strictly
below that value; with the initial sentinel `-1` still in place it frees
nothing, since every installed node carries a change number `>= 0`. -/
theorem c2_prune_never_frees_live_nodes (s : AeronSubscription)
    (hr : Reachable s) :
    (∀ l ∈ (aeron_client_conductor_subscription_prune_image_lists s).2,
        l.change_number < s.last_image_list_change_number) ∧
    (s.last_image_list_change_number = -1 →
      (aeron_client_conductor_subscription_prune_image_lists s).2 = []) := by
  obtain ⟨vs, h⟩ := hr
  obtain ⟨⟨_, hbnd, _⟩, _, _⟩ := reachableH_inv h
  have hfreed : ∀ l ∈ (aeron_client_conductor_subscription_prune_image_lists s).2,
      l.change_number < s.last_image_list_change_number := by
    intro l hl
    exact prune_image_lists_walk_freed s.last_image_list_change_number
      s.image_lists l hl
  refine ⟨hfreed, fun hlast => ?_⟩
  rw [List.eq_nil_iff_forall_not_mem]
  intro x hx
  have h1 := hfreed x hx
  have hmem : x ∈ s.image_lists :=
    (prune_image_lists_walk_freed_sublist s.last_image_list_change_number
      s.image_lists).subset hx
  have h2 := (hbnd x hmem).1
  omega

theorem c2_prune_never_frees_live_nodes_witness :
    (∀ l ∈ (aeron_client_conductor_subscription_prune_image_lists
        twoInstallSub).2,
        l.change_number < twoInstallSub.last_image_list_change_number) ∧
    (twoInstallSub.last_image_list_change_number = -1 →
      (aeron_client_conductor_subscription_prune_image_lists
        twoInstallSub).2 = []) :=
  c2_prune_never_frees_live_nodes twoInstallSub
    ⟨_, ReachableH.install _ _ ilB (ReachableH.install _ _ ilA
      (ReachableH.create "aeron:udp?endpoint=localhost:40123" 10 1
        freshSub rfl))⟩

/-- C9: in every state reachable by interleaving installs, prunes and polls
from a fresh subscription, change numbers strictly decrease along the chain
from the head, and every node's change number is below
`next_change_number`. -/
theorem c9_chain_change_numbers_strictly_decreasing (s : AeronSubscription)
    (hr : Reachable s) :
    List.Chain' (fun a b => b.change_number < a.change_number)
      s.image_lists ∧
    ∀ l ∈ s.image_lists, l.change_number < s.next_change_number := by
  obtain ⟨vs, h⟩ := hr
  obtain ⟨⟨hpw, hbnd, _⟩, _, _⟩ := reachableH_inv h
  exact ⟨hpw.chain', fun l hl => (hbnd l hl).2⟩

theorem c9_chain_change_numbers_strictly_decreasing_witness :
    List.Chain' (fun a b => b.change_number < a.change_number)
      (aeron_client_conductor_subscription_prune_image_lists
        twoInstallSub).1.image_lists ∧
    ∀ l ∈ (aeron_client_conductor_subscription_prune_image_lists
        twoInstallSub).1.image_lists,
      l.change_number <
        (aeron_client_conductor_subscription_prune_image_lists
          twoInstallSub).1.next_change_number :=
  c9_chain_change_numbers_strictly_decreasing _
    ⟨_, ReachableH.prune _ _ (ReachableH.install _ _ ilB
      (ReachableH.install _ _ ilA
        (ReachableH.create "aeron:udp?endpoint=localhost:40123" 10 1
          freshSub rfl)))⟩

/-- C5: the version a new install stamps on its node is
`next_change_number`, which strictly exceeds every version previously
assigned for this subscription (the ghost history `vs`); consequently no
two installed snapshots ever share a version (`vs` has no duplicates). -/
theorem c5_install_version_exceeds_all_previous (s : AeronSubscription)
    (vs : List Int) (h : ReachableH s vs) (l : AeronImageList) :
    ((aeron_client_conductor_subscription_new_image_list s
        l).image_lists.map (fun il => il.change_number)).head? =
      some s.next_change_number ∧
    (∀ v ∈ vs, v < s.next_change_number) ∧
    vs.Nodup := by
  obtain ⟨_, hvs, hvp⟩ := reachableH_inv h
  exact ⟨rfl, hvs, hvp.imp ne_of_gt⟩

theorem c5_install_version_exceeds_all_previous_witness :
    ((aeron_client_conductor_subscription_new_image_list twoInstallSub
        ilA).image_lists.map (fun il => il.change_number)).head? =
      some twoInstallSub.next_change_number ∧
    (∀ v ∈ ([1, 0] : List Int), v < twoInstallSub.next_change_number) ∧
    ([1, 0] : List Int).Nodup := by
  exact c5_install_version_exceeds_all_previous twoInstallSub [1, 0]
    (ReachableH.install _ _ ilB (ReachableH.install _ _ ilA
      (ReachableH.create "aeron:udp?endpoint=localhost:40123" 10 1
        freshSub rfl))) ilA

/-- C6: on a poll over a chain headed by a list of `n` images, with positive
`fragment_limit` and a per-image poll that returns a count in `[0, limit]`
for every positive limit it is offered, the call returns at most
`fragment_limit` fragments, polls at most `n` images, and polls no image
index twice. -/
theorem c6_bounded_work (f : Nat → Int → Int) (s : AeronSubscription)
    (limit : Int) (il : AeronImageList) (rest : List AeronImageList)
    (hch : s.image_lists = il :: rest) (hlim : 0 < limit)
    (hf : ∀ a l, 0 < l → 0 ≤ f a l ∧ f a l ≤ l) :
    ∃ fr st polled s2,
      aeron_subscription_poll f s limit = some (fr, st, polled, s2) ∧
      fr ≤ limit ∧ polled.length ≤ il.images.length ∧ polled.Nodup := by
  have heq := aeron_subscription_poll_eq f s limit il rest hch _ _ rfl rfl
  set st := if s.round_robin_index ≥ il.images.length then 0
    else s.round_robin_index with hstdef
  have hstle : st ≤ il.images.length := by
    rw [hstdef]; split <;> omega
  refine ⟨_, _, _, _, heq, ?_, ?_, ?_⟩
  · exact (poll_images_loop_le f il.images hf (List.range st) limit _
      (poll_images_loop_le f il.images hf
        (List.range' st (il.images.length - st)) limit 0 hlim.le).2).2
  · have h1 := (poll_images_loop_sublist f il.images
      (List.range' st (il.images.length - st)) limit 0).length_le
    have h2 := (poll_images_loop_sublist f il.images (List.range st) limit
      (poll_images_loop f il.images
        (List.range' st (il.images.length - st)) limit 0).1).length_le
    simp only [List.length_append]
    simp at h1 h2
    omega
  · refine List.Nodup.append ?_ ?_ ?_
    · exact List.Nodup.sublist
        (poll_images_loop_sublist f il.images
          (List.range' st (il.images.length - st)) limit 0)
        (List.nodup_range' st (il.images.length - st))
    · exact List.Nodup.sublist
        (poll_images_loop_sublist f il.images (List.range st) limit _)
        (List.nodup_range st)
    · intro a ha1 ha2
      have m1 := (poll_images_loop_sublist f il.images
        (List.range' st (il.images.length - st)) limit 0).subset ha1
      have m2 := (poll_images_loop_sublist f il.images (List.range st) limit
        (poll_images_loop f il.images
          (List.range' st (il.images.length - st)) limit 0).1).subset ha2
      rw [List.mem_range'_1] at m1
      rw [List.mem_range] at m2
      omega

theorem c6_bounded_work_witness :
    ∃ fr st polled s2,
      aeron_subscription_poll (fun _ _ => (0 : Int)) threeImageSub 10 =
        some (fr, st, polled, s2) ∧
      fr ≤ 10 ∧ polled.length ≤ 3 ∧ polled.Nodup :=
  c6_bounded_work (fun _ _ => (0 : Int)) threeImageSub 10
    { change_number := 0, images := [11, 22, 33] } [] rfl (by decide)
    (fun _ l hl => ⟨le_refl 0, le_of_lt hl⟩)

/-- C7: after the polling loops of a poll call that read the head list `il`,
`last_image_list_change_number` is set to `il.change_number` when that is
strictly greater, and left unchanged otherwise; the call returns the
accumulated fragment count as an ordinary (non-error) result. -/
theorem c7_poll_updates_last_observed (f : Nat → Int → Int)
    (s : AeronSubscription) (limit : Int) (il : AeronImageList)
    (rest : List AeronImageList) (hch : s.image_lists = il :: rest) :
    ∃ fr st polled s2,
      aeron_subscription_poll f s limit = some (fr, st, polled, s2) ∧
      (il.change_number > s.last_image_list_change_number →
        s2.last_image_list_change_number = il.change_number) ∧
      (¬ il.change_number > s.last_image_list_change_number →
        s2.last_image_list_change_number =
          s.last_image_list_change_number) := by
  have heq := aeron_subscription_poll_eq f s limit il rest hch _ _ rfl rfl
  refine ⟨_, _, _, _, heq, fun h => ?_, fun h => ?_⟩
  · show (if il.change_number > s.last_image_list_change_number
        then il.change_number
        else s.last_image_list_change_number) = il.change_number
    rw [if_pos h]
  · show (if il.change_number > s.last_image_list_change_number
        then il.change_number
        else s.last_image_list_change_number) =
      s.last_image_list_change_number
    rw [if_neg h]

theorem c7_poll_updates_last_observed_witness :
    ∃ fr st polled s2,
      aeron_subscription_poll (fun _ _ => (0 : Int)) threeImageSub 10 =
        some (fr, st, polled, s2) ∧
      ((0 : Int) > threeImageSub.last_image_list_change_number →
        s2.last_image_list_change_number = 0) ∧
      (¬ (0 : Int) > threeImageSub.last_image_list_change_number →
        s2.last_image_list_change_number =
          threeImageSub.last_image_list_change_number) :=
  c7_poll_updates_last_observed (fun _ _ => (0 : Int)) threeImageSub 10
    { change_number := 0, images := [11, 22, 33] } [] rfl

/-- A poll whose stored cursor is 0 starts at index 0 (whether or not the
current list is empty). -/
theorem poll_from_cursor_zero_starts_at_zero (f : Nat → Int → Int)
    (s : AeronSubscription) (limit : Int) (il : AeronImageList)
    (rest : List AeronImageList) (hch : s.image_lists = il :: rest)
    (h0 : s.round_robin_index = 0) :
    ∃ fr polled s2,
      aeron_subscription_poll f s limit = some (fr, 0, polled, s2) := by
  refine ⟨_, _, _, aeron_subscription_poll_eq f s limit il rest hch 0 _
    ?_ rfl⟩
  rw [h0]
  rcases Nat.eq_zero_or_pos il.images.length with h | h
  · simp [h]
  · rw [if_neg (by omega)]

/-- C10: when a poll call finds the stored `round_robin_index` at or past
the current list length, it starts at index 0 and leaves the stored cursor
equal to 0 (the reset overwrites the post-increment), so the immediately
following poll on the unchanged chain also starts at index 0. -/
theorem c10_cursor_reset_leaves_cursor_zero (f : Nat → Int → Int)
    (s : AeronSubscription) (limit : Int) (il : AeronImageList)
    (rest : List AeronImageList) (hch : s.image_lists = il :: rest)
    (hcur : il.images.length ≤ s.round_robin_index) :
    ∃ fr polled s2,
      aeron_subscription_poll f s limit = some (fr, 0, polled, s2) ∧
      s2.round_robin_index = 0 ∧
      ∀ (f2 : Nat → Int → Int) (limit2 : Int),
        ∃ fr2 polled2 s3,
          aeron_subscription_poll f2 s2 limit2 =
            some (fr2, 0, polled2, s3) := by
  have hge : s.round_robin_index ≥ il.images.length := hcur
  have heq := aeron_subscription_poll_eq f s limit il rest hch 0 0
    (by rw [if_pos hge]) (by rw [if_pos hge])
  refine ⟨_, _, _, heq, rfl, ?_⟩
  intro f2 limit2
  exact poll_from_cursor_zero_starts_at_zero f2 _ limit2 il rest hch rfl

/-- A reachable-shape state whose cursor points past the current length
(as after the image set shrank). -/
def overCursorSub : AeronSubscription :=
  { threeImageSub with round_robin_index := 5 }

theorem c10_cursor_reset_leaves_cursor_zero_witness :
    ∃ fr polled s2,
      aeron_subscription_poll (fun _ lim => lim) overCursorSub 10 =
        some (fr, 0, polled, s2) ∧
      s2.round_robin_index = 0 ∧
      ∀ (f2 : Nat → Int → Int) (limit2 : Int),
        ∃ fr2 polled2 s3,
          aeron_subscription_poll f2 s2 limit2 =
            some (fr2, 0, polled2, s3) :=
  c10_cursor_reset_leaves_cursor_zero (fun _ lim => lim) overCursorSub 10
    { change_number := 0, images := [11, 22, 33] } [] rfl (by decide)

/-- C4 counterexample: `threeImageSub` is the state reached by installing a
three-image list on a fresh subscription and polling twice with unlimited
images (cursor = 2).  Over the next `n = 3` consecutive polls the
`(starting_index, polled)` pairs are `(2,[2]), (0,[0]), (0,[0])`: the
starting index does not advance by one between calls 2 and 3 (the reset
call leaves the cursor at 0), and image index 1 is never visited in the
window, refuting the claim for windows not starting at cursor 0. -/
theorem c4_counterexample_window_skips_an_image :
    (aeron_subscription_poll_iter (fun _ lim => lim) 10 threeImageSub 3).map
        (fun p => p.1.map (fun q => q.2)) =
      some [(2, [2]), (0, [0]), (0, [0])] ∧
    ¬ ((1 : Nat) ∈ [2] ++ [0] ++ [0]) := by
  exact ⟨rfl, by decide⟩

/-- C4 (amended): across `n` consecutive poll calls on a fixed installed
list of `n` images with unlimited fragment capacity per image, no new
installs, and the window beginning with the fairness cursor at 0 (as on a
freshly created subscription), call `k` starts at index `k` and polls
exactly image `k` — so every image is visited at least once and the
starting index advances by exactly one on each call; the cursor ends at
`n`, so the next call wraps to starting index 0. -/
theorem c4_fairness_round_robin_from_cursor_zero (f : Nat → Int → Int)
    (s : AeronSubscription) (limit : Int) (il : AeronImageList)
    (rest : List AeronImageList) (n : Nat)
    (hch : s.image_lists = il :: rest) (hn : il.images.length = n)
    (_hn1 : 1 ≤ n) (hcur : s.round_robin_index = 0) (hlim : 0 < limit)
    (hf : ∀ a l, f a l = l) :
    ∃ sF,
      aeron_subscription_poll_iter f limit s n =
        some ((List.range n).map (fun k => (limit, k, [k])), sF) ∧
      sF.round_robin_index = n ∧
      ∀ (f2 : Nat → Int → Int) (limit2 : Int),
        ∃ fr2 polled2 s3,
          aeron_subscription_poll f2 sF limit2 =
            some (fr2, 0, polled2, s3) := by
  obtain ⟨sF, h1, h2, h3⟩ :=
    poll_iter_unlimited f limit hlim hf il n s rest hch (by omega)
  have hc : sF.round_robin_index = n := by omega
  refine ⟨sF, ?_, hc, ?_⟩
  · rw [h1, hcur, List.range_eq_range']
  · intro f2 limit2
    have hch2 : sF.image_lists = il :: rest := by rw [h3, hch]
    have hge : sF.round_robin_index ≥ il.images.length := by omega
    exact ⟨_, _, _, aeron_subscription_poll_eq f2 sF limit2 il rest hch2 0 _
      (by rw [if_pos hge]) rfl⟩

/-- A fresh subscription with one installed two-image list, cursor at 0. -/
def twoImageSub : AeronSubscription :=
  { freshSub with
    image_lists := [{ change_number := 0, images := [5, 6] }]
    next_change_number := 1 }

theorem c4_fairness_round_robin_from_cursor_zero_witness :
    ∃ sF,
      aeron_subscription_poll_iter (fun _ lim => lim) 10 twoImageSub 2 =
        some ((List.range 2).map (fun k => ((10 : Int), k, [k])), sF) ∧
      sF.round_robin_index = 2 ∧
      ∀ (f2 : Nat → Int → Int) (limit2 : Int),
        ∃ fr2 polled2 s3,
          aeron_subscription_poll f2 sF limit2 =
            some (fr2, 0, polled2, s3) :=
  c4_fairness_round_robin_from_cursor_zero (fun _ lim => lim) twoImageSub 10
    { change_number := 0, images := [5, 6] } [] 2 rfl rfl (by decide) rfl
    (by decide) (fun _ _ => rfl)
